import Mathlib

/-!
Verification of the arXiv ML trends pipeline against its specification.

This file gives a shallow embedding, in Lean 4, of the handlers of the
repository (fetcher, classifier, aggregator, report generation, email
delivery, raw-article storage) and proves or refutes the frozen claims
about them.  Machine integers are modelled by Nat and Int, JavaScript
exceptions by Except and Option, database tables by lists of rows, and
external effects (HTTP responses, JSON.parse, Date parsing, SMTP
outcomes) by explicit input parameters.  Every definition is translated
from the TypeScript source; comments note where an external primitive is
replaced by a parameter and where SQL leaves an order unspecified (there
a deterministic stable sort refining the specified keys is used).
-/

namespace ArxivSpec

/-! ### Generic list and character-string utilities

The handlers work on JavaScript strings; they are modelled as Lean
strings, with the character-level processing done on `List Char`
(`String.data`).  JavaScript string indices are UTF-16 code units; all
inputs of interest here are ASCII, where code units and characters
coincide. -/

/-- splitFirst pat cs splits cs at the first occurrence of the
pattern pat, returning the part before the pattern and the part after
it, or none when the pattern does not occur.  This models the behaviour
of a JavaScript regular-expression search for a literal. -/
def splitFirst (pat : List Char) : List Char → Option (List Char × List Char)
  | [] => if pat.isEmpty then some ([], []) else none
  | c :: rest =>
    if pat.isPrefixOf (c :: rest) then some ([], (c :: rest).drop pat.length)
    else match splitFirst pat rest with
      | some (pre, post) => some (c :: pre, post)
      | none => none

/-- strIncludes s pat models JavaScript String.prototype.includes. -/
def strIncludes (s pat : String) : Bool := (splitFirst pat.data s.data).isSome

/-- replaceSubFuel is the fuel-indexed worker for `replaceSub`; the fuel
only serves termination and is always supplied large enough. -/
def replaceSubFuel : Nat → List Char → List Char → List Char → List Char
  | 0, _, _, cs => cs
  | fuel + 1, pat, repl, cs =>
    match splitFirst pat cs with
    | none => cs
    | some (pre, post) => pre ++ repl ++ replaceSubFuel fuel pat repl post

/-- replaceSub pat repl cs replaces every occurrence of the literal
pattern pat by repl, scanning left to right and never rescanning
the replacement text: the semantics of JavaScript replace with a global
literal regular expression. -/
def replaceSub (pat repl cs : List Char) : List Char :=
  replaceSubFuel (cs.length + 1) pat repl cs

/-- splitLines models JavaScript split on a newline character. -/
def splitLines : List Char → List (List Char)
  | [] => [[]]
  | c :: rest =>
    if c = '\n' then [] :: splitLines rest
    else match splitLines rest with
      | [] => [[c]]
      | l :: ls => (c :: l) :: ls

/-- joinLines models JavaScript Array.prototype.join with a newline. -/
def joinLines : List (List Char) → List Char
  | [] => []
  | [l] => l
  | l :: ls => l ++ '\n' :: joinLines ls

/-- mapLines applies a per-line transformation, as a multiline anchored
regular-expression replacement does. -/
def mapLines (f : List Char → List Char) (cs : List Char) : List Char :=
  joinLines ((splitLines cs).map f)

/-- uniqueKeys keeps the first occurrence of every element, in order of
first appearance: the iteration order of a JavaScript Map or of object
keys built by insertion. -/
def uniqueKeys {α : Type} [DecidableEq α] (l : List α) : List α :=
  l.foldl (fun acc x => if x ∈ acc then acc else acc ++ [x]) []

/-- lowerStr models String.prototype.toLowerCase on ASCII data. -/
def lowerStr (s : String) : String := String.mk (s.data.map Char.toLower)

/-! ### Data model

Rows of the three tables of db/schema.ts.  Timestamps are epoch
numbers; the jsonb array columns are lists of strings. -/

/-- A row of the articles_raw table. -/
structure RawRow where
  arxiv_id : String
  title : String
  summary : String
  authors : List String
  published : Int
  categories : List String
  run_id : String
  created_at : Int
deriving DecidableEq

/-- A row of the articles_enriched table. -/
structure EnrichedRow where
  id : Nat
  arxiv_id : String
  run_id : String
  primary_category : String
  secondary_categories : List String
  potential_impact : Int
  created_at : Int
deriving DecidableEq

/-- A row of the weekly_reports table. -/
structure WeeklyReportRow where
  id : Nat
  run_id : String
  subject : String
  body_markdown : String
  body_html : String
  emailed : Bool
  created_at : Int
deriving DecidableEq

/-- The database state: the three tables, each as a list of rows in
insertion order. -/
structure DB where
  raw : List RawRow
  enriched : List EnrichedRow
  reports : List WeeklyReportRow
deriving DecidableEq

/-- A representative paper inside a topic aggregation (schema.ts
topicCountSchema element). -/
structure RepresentativePaper where
  arxiv_id : String
  title : String
  summary : String
  authors : List String
  published : Int
  potential_impact : Int
deriving DecidableEq

/-- A topic aggregation entry (schema.ts TopicCount). -/
structure TopicCount where
  primary_category : String
  count : Nat
  representative_papers : List RepresentativePaper
deriving DecidableEq

/-- The classification record returned by the classifier (schema.ts
LlmClassification).  The source types the primary category by a closed
enumeration; here it is a string constrained by the validator below. -/
structure LlmClassification where
  primary_category : String
  secondary_categories : List String
  potential_impact : Int
deriving DecidableEq

/-- The closed set of 14 category labels of schema.ts
primaryCategoryEnum. -/
def categoryList : List String :=
  ["Foundation Models",
   "LLM Fine-tuning",
   "Parameter-Efficient Fine-tuning (PEFT)",
   "Retrieval-Augmented Generation (RAG)",
   "Model Quantization",
   "Agentic AI / AI Agents",
   "Multimodality",
   "Reinforcement Learning",
   "Computer Vision (Specific Techniques)",
   "Natural Language Processing (Specific Techniques)",
   "Ethical AI / AI Safety",
   "Efficient AI / AI Optimization",
   "Data-centric AI",
   "Other"]

/-! ### Classifier (classify_paper handler)

JSON.parse together with the code-fence extraction that precedes it in
parseAndValidateResponse is an external string-level primitive; its
outcome is modelled as an `Option Json` input (none = the parse threw).
The JSON value type distinguishes integral numbers, since the zod
schema checks Number.isInteger. -/

/-- A parsed JSON value.  nonIntNum stands for any number that is not
an integer; JSON.parse produces objects with unique keys (later
duplicates overwrite earlier ones), so field lists are read by first
match. -/
inductive Json where
  | null : Json
  | bool (b : Bool) : Json
  | str (s : String) : Json
  | intNum (n : Int) : Json
  | nonIntNum : Json
  | arr (elems : List Json) : Json
  | obj (fields : List (String × Json)) : Json

/-- lookupField reads a property of a parsed JSON object. -/
def lookupField (fields : List (String × Json)) (key : String) : Option Json :=
  (fields.find? (fun kv => kv.1 == key)).map (·.2)

/-- decodeCat checks one element of the secondary_categories array
against the category enumeration, as z.array(primaryCategoryEnum)
does elementwise. -/
def decodeCat : Json → Option String
  | Json.str s => if s ∈ categoryList then some s else none
  | _ => none

/-- decodeCats decodes a whole secondary_categories array; one bad
element fails the array, as the zod array parse does. -/
def decodeCats : List Json → Option (List String)
  | [] => some []
  | j :: rest =>
    match decodeCat j, decodeCats rest with
    | some s, some ss => some (s :: ss)
    | _, _ => none

/-- validateClassification models llmClassificationSchema.parse: the
value must be an object whose primary_category is one of the 14
labels, whose secondary_categories is an array of at most 2 labels,
and whose potential_impact is an integer between 1 and 5; any
violation makes the zod parse throw, modelled as none. -/
def validateClassification (j : Json) : Option LlmClassification :=
  match j with
  | Json.obj fields =>
    match lookupField fields "primary_category",
          lookupField fields "secondary_categories",
          lookupField fields "potential_impact" with
    | some (Json.str p), some (Json.arr xs), some (Json.intNum n) =>
      match decodeCats xs with
      | some cs =>
        if p ∈ categoryList ∧ cs.length ≤ 2 ∧ 1 ≤ n ∧ n ≤ 5 then
          some { primary_category := p, secondary_categories := cs, potential_impact := n }
        else none
      | none => none
    | _, _, _ => none
  | _ => none

/-- The fallback classification returned on any parse or validation
failure. -/
def fallbackClassification : LlmClassification :=
  { primary_category := "Other", secondary_categories := [], potential_impact := 1 }

/-- parseAndValidateResponse: the try block parses and zod-validates
the response; the catch block returns the fallback classification.
The argument is the outcome of the string-level fence stripping plus
JSON.parse (none when JSON.parse threw). -/
def parseAndValidateResponse (parsed : Option Json) : LlmClassification :=
  match parsed with
  | none => fallbackClassification
  | some j => (validateClassification j).getD fallbackClassification

/-- The relevant part of the HTTP response of the LLM service: the ok
flag and status of fetch, the error body text, and the contents of
data.choices (message contents; an absent or empty choices array is
the empty list). -/
structure LlmHttpResponse where
  ok : Bool
  status : Nat
  errorText : String
  choices : List String

/-- callOpenRouter: requires the API key from the environment before
anything else; a non-ok HTTP status or an empty choices array is
thrown as an error; otherwise the first choice content is returned.
The network call itself is external and enters as the resp argument,
which is only consulted after the key check. -/
def callOpenRouter (apiKey : Option String) (resp : LlmHttpResponse) : Except String String :=
  match apiKey with
  | none => Except.error "OPENROUTER_API_KEY environment variable is required"
  | some _ =>
    if !resp.ok then
      Except.error ("OpenRouter API error: " ++ toString resp.status ++ " - " ++ resp.errorText)
    else
      match resp.choices with
      | [] => Except.error "No response generated from OpenRouter API"
      | c :: _ => Except.ok c

/-- classifyPaper: builds the prompt (pure string work, irrelevant to
the result structure), calls the service, and parses and validates the
response; the surrounding try block rethrows every error unchanged.
jsonParse is the external JSON.parse oracle (with fence stripping)
applied to the returned content. -/
def classifyPaper (apiKey : Option String) (resp : LlmHttpResponse)
    (jsonParse : String → Option Json) : Except String LlmClassification :=
  match callOpenRouter apiKey resp with
  | Except.error e => Except.error e
  | Except.ok content => Except.ok (parseAndValidateResponse (jsonParse content))

/-! ### Email delivery (send_email handler) -/

/-- falsyEnv: a process.env entry is falsy when it is absent or the
empty string. -/
def falsyEnv (o : Option String) : Bool :=
  match o with
  | none => true
  | some s => s == ""

/-- The SMTP-related environment variables read by sendEmail. -/
structure SmtpEnv where
  host : Option String
  port : Option String
  user : Option String
  pass : Option String
  fromAddr : Option String

/-- The outcome of the external SMTP session: transporter.verify may
throw, transporter.sendMail may throw, or sendMail returns an info
object whose accepted and rejected fields are possibly-absent address
lists. -/
inductive SmtpOutcome where
  | verifyError : SmtpOutcome
  | sendError : SmtpOutcome
  | sent (accepted rejected : Option (List String)) : SmtpOutcome

/-- sendEmail: returns false when the host, user or password
configuration is missing, when verification or sending throws, and
when the send info reports at least one rejected recipient; returns
true exactly when a send completed with zero rejected recipients.  The
whole body is inside a try block whose catch returns false, so the
function is total and never raises; the markdown argument is only used
to derive the plain-text fallback and cannot affect the result. -/
def sendEmail (env : SmtpEnv) (outcome : SmtpOutcome)
    (_recipients : List String) (_subject _htmlBody _markdownBody : String) : Bool :=
  if falsyEnv env.host || falsyEnv env.user || falsyEnv env.pass then false
  else
    match outcome with
    | SmtpOutcome.verifyError => false
    | SmtpOutcome.sendError => false
    | SmtpOutcome.sent _ rejected => (rejected.getD []).length == 0

/-! ### Raw-article storage (create_article_raw handler) -/

/-- The input record of createArticleRaw (schema.ts
CreateArticleRawInput). -/
structure CreateArticleRawInput where
  arxiv_id : String
  title : String
  summary : String
  authors : List String
  published : Int
  categories : List String
  run_id : String
deriving DecidableEq

/-- rawRowOfInput builds the inserted row; created_at is the database
default now() timestamp, supplied as a parameter. -/
def rawRowOfInput (input : CreateArticleRawInput) (now : Int) : RawRow :=
  { arxiv_id := input.arxiv_id, title := input.title, summary := input.summary,
    authors := input.authors, published := input.published,
    categories := input.categories, run_id := input.run_id, created_at := now }

/-- createArticleRaw: insert with onConflictDoNothing on the arxiv_id
primary key; when the insert returned nothing (a conflict), the
existing row is fetched by a select on arxiv_id and its first result is
returned; the defensive branch where that select is empty throws. -/
def createArticleRaw (input : CreateArticleRawInput) (now : Int)
    (table : List RawRow) : Except String (RawRow × List RawRow) :=
  if table.any (fun r => r.arxiv_id == input.arxiv_id) then
    match table.find? (fun r => r.arxiv_id == input.arxiv_id) with
    | some ex => Except.ok (ex, table)
    | none =>
      Except.error ("Failed to create or retrieve article with arxiv_id: " ++ input.arxiv_id)
  else
    let row := rawRowOfInput input now
    Except.ok (row, table ++ [row])

/-! ### Source fetcher (fetch_arxiv_papers handler)

The HTTP call, the XML entry splitting and the Date constructor are
external; the embedding starts from the list of parsed feed entries
(the ArxivEntry interface) and models Date parsing by an oracle
parameter. -/

/-- A parsed Atom feed entry: every field of the ArxivEntry interface
is an array of extracted XML values; author is the list of per-author
name arrays and category the list of term attributes. -/
structure FeedEntry where
  id : List String
  title : List String
  summary : List String
  author : List (List String)
  published : List String
  category : List String
deriving DecidableEq

/-- isJsWs approximates the JavaScript whitespace class on the ASCII
range. -/
def isJsWs (c : Char) : Bool := c.isWhitespace

/-- collapseAux collapses every run of whitespace to a single space;
the flag records whether the previous character was whitespace. -/
def collapseAux : List Char → Bool → List Char
  | [], _ => []
  | c :: rest, prev =>
    if isJsWs c then
      if prev then collapseAux rest true else ' ' :: collapseAux rest true
    else c :: collapseAux rest false

/-- cleanText: collapse internal whitespace and newlines to single
spaces, then trim; the separate newline replacement of the source is a
no-op after the whitespace collapse because the whitespace class
contains the newline. -/
def cleanText (s : String) : String :=
  String.mk ((((collapseAux s.data false).dropWhile isJsWs).reverse.dropWhile isJsWs).reverse)

/-- stripVerFind searches, left to right, for the earliest position
where the remaining characters are a letter v followed by one or more
digits reaching the end, returning the prefix before that position;
this is the lazy capture of the version-stripping regular
expression. -/
def stripVerFind : List Char → Option (List Char)
  | [] => none
  | c :: rest =>
    if c = 'v' ∧ rest ≠ [] ∧ rest.all Char.isDigit then some []
    else (stripVerFind rest).map (c :: ·)

/-- stripVersion removes a trailing version suffix vN when one exists;
the captured stem must be non-empty, so the search starts after the
first character. -/
def stripVersion (cs : List Char) : List Char :=
  match cs with
  | [] => []
  | c0 :: rest =>
    match stripVerFind rest with
    | some pre => c0 :: pre
    | none => cs

/-- isBareIdForm tests the fallback identifier shape: one or more
digits, a dot, one or more digits, an optional v, and zero or more
digits.  Equivalently: the first character is a digit, exactly one
dot splits two nonempty digit groups, and at most one v occurs, only
after the dot. -/
def isBareIdForm (cs : List Char) : Bool :=
  let d1 := cs.takeWhile Char.isDigit
  let rest := cs.drop d1.length
  match rest with
  | '.' :: rest2 =>
    let d2 := rest2.takeWhile Char.isDigit
    let rest3 := rest2.drop d2.length
    !d1.isEmpty && !d2.isEmpty &&
      (rest3.isEmpty || (rest3.take 1 == ['v'] && (rest3.drop 1).all Char.isDigit))
  | _ => false

/-- extractArxivId: throws (none) on an empty url; takes everything
after the first arxiv.org slash abs slash occurrence when that rest is
non-empty, else falls back to testing the whole url for the bare
identifier shape; in both cases the version suffix is stripped; any
other shape throws. -/
def extractArxivId (url : String) : Option String :=
  if url = "" then none
  else
    match splitFirst "arxiv.org/abs/".data url.data with
    | some (_, rest) =>
      if rest ≠ [] then some (String.mk (stripVersion rest))
      else if isBareIdForm url.data then some (String.mk (stripVersion url.data))
      else none
    | none =>
      if isBareIdForm url.data then some (String.mk (stripVersion url.data))
      else none

/-- canonicalIdOf: the canonical identifier of a feed entry, from its
first id value (empty string when absent, which throws). -/
def canonicalIdOf (e : FeedEntry) : Option String :=
  extractArxivId (e.id.headD "")

/-- mkPaper builds the normalized record for one feed entry.
parseDate is the external Date constructor applied to the first
published value (the current date when absent, folded into the
oracle); an absent author name is modelled as the empty string. -/
def mkPaper (parseDate : String → Int) (runId : String) (cid : String)
    (e : FeedEntry) : CreateArticleRawInput :=
  { arxiv_id := cid,
    title := cleanText (e.title.headD ""),
    summary := cleanText (e.summary.headD ""),
    authors := e.author.map (fun n => n.headD ""),
    published := parseDate (e.published.headD ""),
    categories := e.category,
    run_id := runId }

/-- fetchLoop is the transform-and-deduplicate loop over the feed
entries: an entry whose identifier extraction throws is skipped and
processing continues; an entry whose canonical identifier was already
seen is skipped; otherwise the identifier is recorded as seen and the
normalized record is appended. -/
def fetchLoop (parseDate : String → Int) (runId : String) :
    List FeedEntry → List String → List CreateArticleRawInput
  | [], _ => []
  | e :: rest, seen =>
    match canonicalIdOf e with
    | none => fetchLoop parseDate runId rest seen
    | some cid =>
      if cid ∈ seen then fetchLoop parseDate runId rest seen
      else mkPaper parseDate runId cid e :: fetchLoop parseDate runId rest (cid :: seen)

/-- fetchArxivPapers, from the point where the feed has been parsed
into entries: the dedup loop starting from an empty seen set.  The
query construction, HTTP status check and XML splitting that precede
it are external-call plumbing that does not affect the output list
given the entries. -/
def fetchArxivPapers (parseDate : String → Int) (runId : String)
    (entries : List FeedEntry) : List CreateArticleRawInput :=
  fetchLoop parseDate runId entries []

/-! ### Ingestion (ingest_papers handler)

The handler uses its own mock fetch and mock classifier; both are
embedded.  The upstream papers are a parameter so that two runs with
the same upstream data can be related. -/

/-- A paper as returned by the mock arXiv fetch of ingest_papers.ts;
published is modelled as an already-parsed timestamp. -/
structure IngestEntry where
  id : String
  title : String
  summary : String
  authors : List String
  published : Int
  categories : List String
deriving DecidableEq

/-- mockClassify ports the keyword-based mock classifier.  The source
also lowercases the summary but never reads it; only the lowercased
title drives the result. -/
def mockClassify (p : IngestEntry) : String × List String × Int :=
  let title := lowerStr p.title
  if strIncludes title "lora" || strIncludes title "fine-tuning" then
    ("Parameter-Efficient Fine-tuning (PEFT)", ["LLM Fine-tuning"], 4)
  else if strIncludes title "rag" || strIncludes title "retrieval" then
    ("Retrieval-Augmented Generation (RAG)", ["Natural Language Processing (Specific Techniques)"], 3)
  else if strIncludes title "multimodal" || strIncludes title "vision" then
    ("Multimodality", ["Foundation Models"], 5)
  else
    ("Other", [], 2)

/-- The result record of one ingestion run; topic_counts is the
JavaScript record in key-insertion order. -/
structure IngestionRunResult where
  run_id : String
  total_new : Nat
  topic_counts : List (String × Nat)
deriving DecidableEq

/-- bumpCount increments the count of a key of the topic_counts
record, creating it at the end when absent, as the JavaScript object
update does. -/
def bumpCount (counts : List (String × Nat)) (k : String) : List (String × Nat) :=
  if counts.any (fun kv => kv.1 == k) then
    counts.map (fun kv => if kv.1 == k then (kv.1, kv.2 + 1) else kv)
  else counts ++ [(k, 1)]

/-- rawRowOfEntry is the raw insert performed for one new paper. -/
def rawRowOfEntry (runId : String) (now : Int) (p : IngestEntry) : RawRow :=
  { arxiv_id := p.id, title := p.title, summary := p.summary, authors := p.authors,
    published := p.published, categories := p.categories, run_id := runId, created_at := now }

/-- ingestStep processes one new paper: insert the raw row, classify,
insert the enriched row (serial id refined as the current row count),
and update the counters. -/
def ingestStep (runId : String) (now : Int)
    (acc : DB × Nat × List (String × Nat)) (p : IngestEntry) : DB × Nat × List (String × Nat) :=
  let db := acc.1
  let cls := mockClassify p
  let enr : EnrichedRow :=
    { id := db.enriched.length, arxiv_id := p.id, run_id := runId,
      primary_category := cls.1, secondary_categories := cls.2.1,
      potential_impact := cls.2.2, created_at := now }
  ({ db with raw := db.raw ++ [rawRowOfEntry runId now p],
             enriched := db.enriched ++ [enr] },
   acc.2.1 + 1, bumpCount acc.2.2 cls.1)

/-- ingestPapers: generate a run identifier (a parameter here), fetch
the upstream papers (a parameter), filter out the papers whose
identifier is already stored, and process each remaining paper in
order. -/
def ingestPapers (papers : List IngestEntry) (runId : String) (now : Int)
    (db : DB) : DB × IngestionRunResult :=
  let existingIds := db.raw.map (·.arxiv_id)
  let newPapers := papers.filter (fun p => decide (p.id ∉ existingIds))
  let res := newPapers.foldl (ingestStep runId now) (db, 0, [])
  (res.1, { run_id := runId, total_new := res.2.1, topic_counts := res.2.2 })

/-! ### Topic aggregation (get_topic_aggregations handler)

SQL leaves the order of rows equal under every ORDER BY key
unspecified; the embedding refines it to the table order through a
stable insertion sort on exactly the keys the query names. -/

/-- mkRep maps one joined row to a representative-paper record. -/
def mkRep (x : EnrichedRow × RawRow) : RepresentativePaper :=
  { arxiv_id := x.2.arxiv_id, title := x.2.title, summary := x.2.summary,
    authors := x.2.authors, published := x.2.published,
    potential_impact := x.1.potential_impact }

/-- joinRun: the enriched rows of the run inner-joined with their raw
row on arxiv_id.  arxiv_id is the primary key of articles_raw, so a
row has at most one join partner, modelled by first match. -/
def joinRun (db : DB) (runId : String) : List (EnrichedRow × RawRow) :=
  (db.enriched.filter (fun e => e.run_id == runId)).filterMap
    (fun e => (db.raw.find? (fun r => r.arxiv_id == e.arxiv_id)).map (fun r => (e, r)))

/-- aggRel a b means a may precede b under the ORDER BY of the
aggregation query: impact descending, then published descending. -/
def aggRel (a b : EnrichedRow × RawRow) : Prop :=
  b.1.potential_impact < a.1.potential_impact ∨
    (b.1.potential_impact = a.1.potential_impact ∧ b.2.published ≤ a.2.published)

instance : DecidableRel aggRel := fun a b => by unfold aggRel; infer_instance

instance : IsTotal (EnrichedRow × RawRow) aggRel where
  total a b := by
    unfold aggRel
    rcases lt_trichotomy a.1.potential_impact b.1.potential_impact with h | h | h
    · exact Or.inr (Or.inl h)
    · rcases le_total b.2.published a.2.published with h2 | h2
      · exact Or.inl (Or.inr ⟨h.symm, h2⟩)
      · exact Or.inr (Or.inr ⟨h, h2⟩)
    · exact Or.inl (Or.inl h)

instance : IsTrans (EnrichedRow × RawRow) aggRel where
  trans a b c hab hbc := by
    unfold aggRel at *
    rcases hab with h1 | ⟨h1, h1'⟩
    · rcases hbc with h2 | ⟨h2, h2'⟩
      · exact Or.inl (h2.trans h1)
      · exact Or.inl (h2 ▸ h1)
    · rcases hbc with h2 | ⟨h2, h2'⟩
      · exact Or.inl (h1 ▸ h2)
      · exact Or.inr ⟨h2.trans h1, h2'.trans h1'⟩

/-- getTopicAggregations: fetch the joined rows of the run ordered by
impact then published (both descending), group them by primary
category in map-insertion order, take the first 3 of each group as
representatives, and sort the topic list by count descending. -/
def getTopicAggregations (db : DB) (runId : String) : List TopicCount :=
  let sorted := List.insertionSort aggRel (joinRun db runId)
  let cats := uniqueKeys (sorted.map (fun x => x.1.primary_category))
  let groups := cats.map (fun c => (c, sorted.filter (fun x => x.1.primary_category == c)))
  let tcs := groups.map (fun g =>
    { primary_category := g.1, count := g.2.length,
      representative_papers := (g.2.take 3).map mkRep : TopicCount })
  List.insertionSort (fun a b => b.count ≤ a.count) tcs

/-- repRel p q means p may precede q when representatives are ordered
by impact score descending with ties broken by publication date
descending; this is the ranking the specification states. -/
def repRel (p q : RepresentativePaper) : Prop :=
  q.potential_impact < p.potential_impact ∨
    (q.potential_impact = p.potential_impact ∧ q.published ≤ p.published)

/-! ### Report generation (generate_report handler) -/

/-- getTopicCountsWithRepresentativePapers, the private aggregation of
generate_report.ts.  The count query filters on run_id, groups by
primary category and orders by count descending; the per-category
representative query joins enriched with raw, filters ONLY on the
primary category — its where clause has no run_id condition — and
orders by impact descending alone, taking 3. -/
def getTopicCountsWithRepresentativePapers (db : DB) (runId : String) : List TopicCount :=
  let runRows := db.enriched.filter (fun e => e.run_id == runId)
  let cats := uniqueKeys (runRows.map (·.primary_category))
  let countPairs := cats.map (fun c => (c, (runRows.filter (fun e => e.primary_category == c)).length))
  let sortedCounts := List.insertionSort (fun a b : String × Nat => b.2 ≤ a.2) countPairs
  let joined := db.enriched.filterMap
    (fun e => (db.raw.find? (fun r => r.arxiv_id == e.arxiv_id)).map (fun r => (e, r)))
  sortedCounts.map (fun cp =>
    let reps := joined.filter (fun x => x.1.primary_category == cp.1)
    let sortedReps := List.insertionSort
      (fun a b : EnrichedRow × RawRow => b.1.potential_impact ≤ a.1.potential_impact) reps
    { primary_category := cp.1, count := cp.2,
      representative_papers := (sortedReps.take 3).map mkRep : TopicCount })

/-- toFixed1 models Number.prototype.toFixed(1) applied to the
percentage count/total*100, computed on the exact rational rounded
half away from zero; the binary floating-point noise of the source
cannot change any claim proved here.  A zero total renders NaN, as in
JavaScript; the caller guards against it. -/
def toFixed1 (count total : Nat) : String :=
  if total == 0 then "NaN"
  else
    let scaled := (count * 1000 * 2 + total) / (2 * total)
    toString (scaled / 10) ++ "." ++ toString (scaled % 10)

/-- takeStr models String.prototype.slice(0, n) on ASCII data. -/
def takeStr (n : Nat) (s : String) : String := String.mk (s.data.take n)

/-- paperBlock renders one representative paper of the Key Papers list
of the markdown body. -/
def paperBlock (idx : Nat) (p : RepresentativePaper) : String :=
  let authorsText := String.intercalate ", " (p.authors.take 3) ++
    (if 3 < p.authors.length then " et al." else "")
  toString (idx + 1) ++ ". **" ++ p.title ++ "**\n" ++
    "   - Authors: " ++ authorsText ++ "\n" ++
    "   - ArXiv ID: " ++ p.arxiv_id ++ "\n" ++
    "   - Impact Score: " ++ toString p.potential_impact ++ "/5\n" ++
    "   - Summary: " ++ takeStr 200 p.summary ++ "...\n\n"

/-- topicSection renders one entry of the Trending Research Areas
section. -/
def topicSection (idx : Nat) (t : TopicCount) : String :=
  "### " ++ toString (idx + 1) ++ ". " ++ t.primary_category ++
    " (" ++ toString t.count ++ " papers)\n\n" ++
    (if t.representative_papers.isEmpty then ""
     else "**Key Papers:**\n\n" ++
       String.join ((t.representative_papers.enum.map (fun ip => paperBlock ip.1 ip.2))))

/-- generateReportContent builds the subject line and the markdown
body from the topic counts; currentDate is the external
locale-formatted current date. -/
def generateReportContent (currentDate : String) (topicCounts : List TopicCount) :
    String × String :=
  let totalPapers := topicCounts.foldl (fun acc t => acc + t.count) 0
  let topCategory := match topicCounts with
    | [] => "AI Research"
    | t :: _ => t.primary_category
  let subject := "Weekly ML Research Trends - " ++ currentDate ++ " (" ++
    toString totalPapers ++ " papers, " ++ topCategory ++ " leads)"
  let header := "# Weekly ML Research Trends Report\n\n" ++
    "**Generated:** " ++ currentDate ++ "\n" ++
    "**Total Papers Analyzed:** " ++ toString totalPapers ++ "\n" ++
    "**Leading Topic:** " ++ topCategory ++ "\n\n"
  let dist := "## 📊 Topic Distribution\n\n" ++
    String.join (topicCounts.enum.map (fun it =>
      toString (it.1 + 1) ++ ". **" ++ it.2.primary_category ++ "**: " ++
        toString it.2.count ++ " papers (" ++ toFixed1 it.2.count totalPapers ++ "%)\n"))
  let trends := "\n## 🔬 Trending Research Areas\n\n" ++
    String.join ((topicCounts.take 5).enum.map (fun it => topicSection it.1 it.2))
  let highImpact := ((topicCounts.map (·.representative_papers)).flatten.filter
    (fun p => 4 ≤ p.potential_impact)).length
  let insights := "## 📈 Insights\n\n" ++
    "- **Most Active Area:** " ++ topCategory ++ " with " ++
      toString (match topicCounts with | [] => 0 | t :: _ => t.count) ++ " papers\n" ++
    (match topicCounts with
     | _ :: second :: _ =>
       "- **Second Most Active:** " ++ second.primary_category ++ " with " ++
         toString second.count ++ " papers\n"
     | _ => "") ++
    "- **High Impact Papers:** " ++ toString highImpact ++
      " papers with impact score ≥ 4\n" ++
    "- **Research Diversity:** " ++ toString topicCounts.length ++
      " distinct research categories\n\n"
  let footer := "---\n\n" ++
    "*This report was automatically generated from ArXiv papers and LLM classifications.*\n"
  (subject, header ++ dist ++ trends ++ insights ++ footer)

/-! #### The markdown-to-HTML conversion private to generate_report.ts

Each regular-expression replacement of the source is ported as a
character-level transformation with the same semantics: the anchored
multiline header patterns act per line; the lazy bold and italic pairs
cannot cross a newline; list handling is an explicit line loop in the
source and is ported directly. -/

/-- h3Line models the anchored replacement of a line starting with
three hash marks and a space. -/
def h3Line (l : List Char) : List Char :=
  if "### ".data.isPrefixOf l then "<h3>".data ++ l.drop 4 ++ "</h3>".data else l

/-- h2Line models the anchored replacement of a line starting with two
hash marks and a space. -/
def h2Line (l : List Char) : List Char :=
  if "## ".data.isPrefixOf l then "<h2>".data ++ l.drop 3 ++ "</h2>".data else l

/-- h1Line models the anchored replacement of a line starting with one
hash mark and a space. -/
def h1Line (l : List Char) : List Char :=
  if "# ".data.isPrefixOf l then "<h1>".data ++ l.drop 2 ++ "</h1>".data else l

/-- boldScan replaces every lazily-matched pair of double asterisks on
one line by a strong element; when an opener has no closer the rest of
the line is left unchanged, as the regular expression finds no further
match.  The fuel only serves termination. -/
def boldScan : Nat → List Char → List Char
  | 0, cs => cs
  | fuel + 1, cs =>
    match cs with
    | '*' :: '*' :: rest =>
      (match splitFirst ['*', '*'] rest with
       | some (content, rest2) =>
         "<strong>".data ++ content ++ "</strong>".data ++ boldScan fuel rest2
       | none => cs)
    | c :: rest => c :: boldScan fuel rest
    | [] => []

/-- italScan replaces every lazily-matched pair of single asterisks on
one line by an em element. -/
def italScan : Nat → List Char → List Char
  | 0, cs => cs
  | fuel + 1, cs =>
    match cs with
    | '*' :: rest =>
      (match splitFirst ['*'] rest with
       | some (content, rest2) =>
         "<em>".data ++ content ++ "</em>".data ++ italScan fuel rest2
       | none => cs)
    | c :: rest => c :: italScan fuel rest
    | [] => []

/-- isNumItem tests the numbered-list-item pattern: one or more digits,
a dot, a space, at the start of the line. -/
def isNumItem (l : List Char) : Bool :=
  let ds := l.takeWhile Char.isDigit
  !ds.isEmpty && ((l.drop ds.length).take 2 == ['.', ' '])

/-- stripNumPrefix removes the numbered-list marker including its
trailing space. -/
def stripNumPrefix (l : List Char) : List Char :=
  l.drop ((l.takeWhile Char.isDigit).length + 2)

/-- listLoop is the explicit list-processing loop of the source: it
opens a list container when a list item follows a non-item, closes
both container kinds when a non-item follows an item, wraps items in
li elements with their marker stripped, and closes any container left
open at the end. -/
def listLoop : List (List Char) → Bool → List (List Char)
  | [], inList => if inList then ["</ol>".data, "</ul>".data] else []
  | l :: rest, inList =>
    let isNum := isNumItem l
    let isBul := "- ".data.isPrefixOf l
    let isItem := isNum || isBul
    let opened : List (List Char) :=
      if isItem && !inList then [if isNum then "<ol>".data else "<ul>".data]
      else if !isItem && inList then ["</ol>".data, "</ul>".data]
      else []
    let nextIn := if isItem && !inList then true
      else if !isItem && inList then false
      else inList
    let thisLine :=
      if isItem then
        "<li>".data ++ (if isNum then stripNumPrefix l else l.drop 2) ++ "</li>".data
      else l
    opened ++ thisLine :: listLoop rest nextIn

/-- liFix models the lazy paragraph-unwrapping of single list items:
every occurrence of a p-wrapped li run, with the earliest possible
closing, loses its p wrapper. -/
def liFix : Nat → List Char → List Char
  | 0, cs => cs
  | fuel + 1, cs =>
    match splitFirst "<p><li>".data cs with
    | none => cs
    | some (pre, rest) =>
      match splitFirst "</li></p>".data rest with
      | none => cs
      | some (mid, rest2) =>
        pre ++ "<li>".data ++ mid ++ "</li>".data ++ liFix fuel rest2

/-- mdPipeline chains the replacement passes of convertMarkdownToHtml
in source order: headers, bold, italic, the list loop, paragraph and
line-break substitution, paragraph wrapping, the fix-up replacements,
and the horizontal rule. -/
def mdPipeline (cs : List Char) : List Char :=
  let h := mapLines h1Line (mapLines h2Line (mapLines h3Line cs))
  let b := mapLines (fun l => boldScan (l.length + 1) l) h
  let i := mapLines (fun l => italScan (l.length + 1) l) b
  let afterList := joinLines (listLoop (splitLines i) false)
  let p1 := replaceSub "\n\n".data "</p><p>".data afterList
  let p2 := replaceSub "\n".data "<br>".data p1
  let w := "<p>".data ++ p2 ++ "</p>".data
  let f1 := replaceSub "<p></p>".data [] w
  let f2 := replaceSub "<p><br></p>".data [] f1
  let f3 := replaceSub "<p><ol>".data "<ol>".data f2
  let f4 := replaceSub "<p><ul>".data "<ul>".data f3
  let f5 := replaceSub "</ol></p>".data "</ol>".data f4
  let f6 := replaceSub "</ul></p>".data "</ul>".data f5
  let f7 := liFix (f6.length + 1) f6
  replaceSub "---".data "<hr>".data f7

/-- convertMarkdownToHtml, the simple conversion private to
generate_report.ts.  It contains no sanitization pass of any kind. -/
def convertMarkdownToHtml (markdown : String) : String :=
  String.mk (mdPipeline markdown.data)

/-- The input of generateReport (schema.ts ReportGenerationInput). -/
structure ReportGenerationInput where
  run_id : String
  preview_only : Bool
deriving DecidableEq

/-- The result of generateReport (schema.ts ReportResult). -/
structure ReportResult where
  subject : String
  body_markdown : String
  body_html : String
  emailed : Bool
deriving DecidableEq

/-- A record of one delivery invocation; generateReport returns the
list of deliveries it performed during the call. -/
structure EmailSend where
  recipients : List String
  subject : String
  html : String
deriving DecidableEq

/-- generateReport: aggregate the run, fail when the aggregation is
empty, render the content, convert it, and insert the report row with
emailed set to the negation of preview_only; the error path leaves the
database unchanged.  The third component is the delivery trace: the
source contains no call to sendEmail, so it is empty on every path.
currentDate and now are the external clock readings. -/
def generateReport (currentDate : String) (now : Int)
    (input : ReportGenerationInput) (db : DB) :
    Except String ReportResult × DB × List EmailSend :=
  let topicCounts := getTopicCountsWithRepresentativePapers db input.run_id
  if topicCounts.isEmpty then
    (Except.error ("No enriched articles found for run_id: " ++ input.run_id), db, [])
  else
    let content := generateReportContent currentDate topicCounts
    let bodyHtml := convertMarkdownToHtml content.2
    let shouldEmail := !input.preview_only
    let row : WeeklyReportRow :=
      { id := db.reports.length, run_id := input.run_id, subject := content.1,
        body_markdown := content.2, body_html := bodyHtml,
        emailed := shouldEmail, created_at := now }
    (Except.ok { subject := content.1, body_markdown := content.2,
                 body_html := bodyHtml, emailed := shouldEmail },
     { db with reports := db.reports ++ [row] }, [])

/-! ### Helper lemmas -/

/-- decodeCats preserves the length of the decoded array. -/
lemma decodeCats_length (xs : List Json) : ∀ ys, decodeCats xs = some ys → ys.length = xs.length := by
  induction xs with
  | nil =>
    intro ys h
    simp only [decodeCats, Option.some.injEq] at h
    subst h
    rfl
  | cons j rest ih =>
    intro ys h
    simp only [decodeCats] at h
    split at h
    · rename_i s ss _ hrest
      cases h
      simp [List.length_cons, ih ss hrest]
    · cases h

/-! ### Claim theorems -/

/-- Claim C1 (code_bug evaluation): the HTML that generateReport
produces and persists comes from convertMarkdownToHtml, which applies
no sanitization pass: a markdown body containing a script element, or
a link with a javascript scheme in its href, passes through to the
output verbatim, contradicting the sanitization contract of the
specification (which the separate markdownToHtml handler, not used by
generateReport, does implement). -/
theorem convertMarkdownToHtml_keeps_dangerous_html :
    convertMarkdownToHtml "<script>alert(1)</script>" =
      "<p><script>alert(1)</script></p>" ∧
    convertMarkdownToHtml "<a href=\"javascript:alert(1)\">x</a>" =
      "<p><a href=\"javascript:alert(1)\">x</a></p>" := by
  exact ⟨by decide, by decide⟩

/-- Claim C2: any LLM response whose content does not parse as JSON,
or whose parsed JSON fails the classification validation, yields
exactly the fallback classification (primary Other, no secondary
categories, impact 1) without raising; and each violation the claim
enumerates — more than 2 secondary categories, a primary category
outside the 14-label set, an impact outside 1 to 5 — does fail the
validation. -/
theorem parseAndValidateResponse_fallback :
    (∀ parsed : Option Json,
       (parsed = none ∨ ∃ j, parsed = some j ∧ validateClassification j = none) →
       parseAndValidateResponse parsed =
         { primary_category := "Other", secondary_categories := [], potential_impact := 1 }) ∧
    (∀ fields xs, lookupField fields "secondary_categories" = some (Json.arr xs) →
       2 < xs.length → validateClassification (Json.obj fields) = none) ∧
    (∀ fields s, lookupField fields "primary_category" = some (Json.str s) →
       s ∉ categoryList → validateClassification (Json.obj fields) = none) ∧
    (∀ fields n, lookupField fields "potential_impact" = some (Json.intNum n) →
       (n < 1 ∨ 5 < n) → validateClassification (Json.obj fields) = none) := by
  refine ⟨?_, ?_, ?_, ?_⟩
  · intro parsed h
    rcases h with h | ⟨j, rfl, hval⟩
    · subst h; rfl
    · simp [parseAndValidateResponse, hval, fallbackClassification]
  · intro fields xs hx hlen
    simp only [validateClassification]
    split
    · rename_i p xs' n h1 h2 h3
      rw [hx] at h2
      cases h2
      split
      · rename_i cs hc
        rw [if_neg]
        rintro ⟨-, h2len, -⟩
        have := decodeCats_length xs cs hc
        omega
      · rfl
    · rfl
  · intro fields s hs hnot
    simp only [validateClassification]
    split
    · rename_i p xs' n h1 h2 h3
      rw [hs] at h1
      cases h1
      split
      · rename_i cs hc
        rw [if_neg]
        rintro ⟨hmem, -⟩
        exact hnot hmem
      · rfl
    · rfl
  · intro fields n hn hbad
    simp only [validateClassification]
    split
    · rename_i p xs' n' h1 h2 h3
      rw [hn] at h3
      cases h3
      split
      · rename_i cs hc
        rw [if_neg]
        rintro ⟨-, -, hlo, hhi⟩
        rcases hbad with hb | hb <;> omega
      · rfl
    · rfl

/-- The JSON object used by the fallback witness: a structurally valid
response with three secondary categories, which the schema rejects. -/
def jsonThreeSecondary : Json :=
  Json.obj
    [("primary_category", Json.str "Foundation Models"),
     ("secondary_categories",
       Json.arr [Json.str "Other", Json.str "Multimodality", Json.str "Reinforcement Learning"]),
     ("potential_impact", Json.intNum 3)]

/-- Witness for claim C2: the concrete response with three secondary
categories fails validation and is mapped to exactly the fallback
classification. -/
theorem parseAndValidateResponse_fallback_witness :
    validateClassification jsonThreeSecondary = none ∧
    parseAndValidateResponse (some jsonThreeSecondary) =
      { primary_category := "Other", secondary_categories := [], potential_impact := 1 } :=
  ⟨by decide,
   parseAndValidateResponse_fallback.1 (some jsonThreeSecondary)
     (Or.inr ⟨jsonThreeSecondary, rfl, by decide⟩)⟩

/-- Claim C3: classifyPaper propagates an error exactly when the
credential is absent, the HTTP response is not ok, or the response has
no candidate completions; with the credential absent the result does
not depend on any network data (the error precedes the call); and on
a successful transport the result is the parsed-and-validated content,
never an error, so content failures cannot raise. -/
theorem classifyPaper_transport (apiKey : Option String) (resp : LlmHttpResponse)
    (jsonParse : String → Option Json) :
    ((∃ e, classifyPaper apiKey resp jsonParse = Except.error e) ↔
      (apiKey = none ∨ resp.ok = false ∨ resp.choices = [])) ∧
    (∀ resp2 jsonParse2, classifyPaper none resp jsonParse = classifyPaper none resp2 jsonParse2) ∧
    (∀ key status errorText c cs jp,
      classifyPaper (some key) ⟨true, status, errorText, c :: cs⟩ jp =
        Except.ok (parseAndValidateResponse (jp c))) := by
  refine ⟨?_, ?_, ?_⟩
  · obtain ⟨ok, status, et, choices⟩ := resp
    cases apiKey <;> cases ok <;> cases choices <;>
      simp [classifyPaper, callOpenRouter]
  · intro resp2 jsonParse2
    rfl
  · intro key status errorText c cs jp
    rfl

/-- Witness for claim C3: with the credential absent, a concrete call
errors even though the transport response is healthy. -/
theorem classifyPaper_transport_witness :
    ∃ e, classifyPaper none ⟨true, 200, "", ["x"]⟩ (fun _ => none) = Except.error e :=
  (classifyPaper_transport none ⟨true, 200, "", ["x"]⟩ (fun _ => none)).1.mpr (Or.inl rfl)

/-- Claim C9: the stored row for the C9 witness. -/
def rowC9 : RawRow :=
  { arxiv_id := "2024.001", title := "Stored title", summary := "Stored summary",
    authors := ["A"], published := 5, categories := ["cs.LG"], run_id := "r1", created_at := 7 }

/-- Claim C9: the conflicting input for the C9 witness, differing from
the stored row in every non-key field. -/
def inputC9 : CreateArticleRawInput :=
  { arxiv_id := "2024.001", title := "Different title", summary := "Different summary",
    authors := ["B", "C"], published := 9, categories := ["stat.ML"], run_id := "r2" }

/-- Claim C9: when a row with the arxiv_id of the input already exists,
createArticleRaw leaves the table unchanged — every stored field of
every row is untouched — and returns the existing record, ignoring the
field values of the input. -/
theorem createArticleRaw_existing (input : CreateArticleRawInput) (now : Int)
    (table : List RawRow) (ex : RawRow)
    (h : table.find? (fun r => r.arxiv_id == input.arxiv_id) = some ex) :
    createArticleRaw input now table = Except.ok (ex, table) := by
  have hpred := List.find?_some h
  have hany : table.any (fun r => r.arxiv_id == input.arxiv_id) = true :=
    List.any_eq_true.mpr ⟨ex, List.mem_of_find?_eq_some h, hpred⟩
  simp [createArticleRaw, hany, h]

/-- Witness for claim C9: a concrete table holding the row, and an
input with the same identifier but different fields, returns the
stored row and leaves the table unchanged. -/
theorem createArticleRaw_existing_witness :
    ([rowC9].find? (fun r => r.arxiv_id == inputC9.arxiv_id) = some rowC9) ∧
    createArticleRaw inputC9 3 [rowC9] = Except.ok (rowC9, [rowC9]) :=
  ⟨by decide, createArticleRaw_existing inputC9 3 [rowC9] rowC9 (by decide)⟩

/-- Claim C10: sendEmail returns true exactly when the configuration
is complete and the SMTP submission completed with zero rejected
recipients; in particular a submission with at least one rejected
recipient returns false no matter how many were accepted, and every
failure mode (missing configuration, verification error, send
exception) returns false — the function is total, so no case
raises. -/
theorem sendEmail_success_iff (env : SmtpEnv) (outcome : SmtpOutcome)
    (recipients : List String) (subject htmlBody markdownBody : String) :
    (sendEmail env outcome recipients subject htmlBody markdownBody = true ↔
      (falsyEnv env.host = false ∧ falsyEnv env.user = false ∧ falsyEnv env.pass = false ∧
       ∃ accepted rejected, outcome = SmtpOutcome.sent accepted rejected ∧
         (rejected.getD []).length = 0)) ∧
    (∀ accepted r rest,
      sendEmail env (SmtpOutcome.sent accepted (some (r :: rest)))
        recipients subject htmlBody markdownBody = false) := by
  constructor
  · cases hH : falsyEnv env.host <;> cases hU : falsyEnv env.user <;>
      cases hP : falsyEnv env.pass <;>
      simp [sendEmail, hH, hU, hP]
    cases outcome <;> simp
    rename_i acc rej
    exact ⟨fun h => ⟨acc, rej, ⟨rfl, rfl⟩, h⟩,
           fun ⟨a, r, ⟨ha, hr⟩, hlen⟩ => by rw [hr]; exact hlen⟩
  · intro accepted r rest
    cases hH : falsyEnv env.host <;> cases hU : falsyEnv env.user <;>
      cases hP : falsyEnv env.pass <;>
      simp [sendEmail, hH, hU, hP]

/-- An accumulator of uniqueKeys never becomes empty. -/
lemma uniqueKeys_foldl_ne_nil {α : Type} [DecidableEq α] (l : List α) :
    ∀ acc : List α, acc ≠ [] →
      l.foldl (fun acc x => if x ∈ acc then acc else acc ++ [x]) acc ≠ [] := by
  induction l with
  | nil => intro acc h; exact h
  | cons y ys ih =>
    intro acc h
    simp only [List.foldl_cons]
    apply ih
    by_cases hy : y ∈ acc
    · simpa [hy]
    · simp only [hy, if_false]
      exact fun hc => by simp at hc

/-- uniqueKeys of a non-empty list is non-empty. -/
lemma uniqueKeys_ne_nil {α : Type} [DecidableEq α] (x : α) (xs : List α) :
    uniqueKeys (x :: xs) ≠ [] := by
  have : uniqueKeys (x :: xs) =
      xs.foldl (fun acc y => if y ∈ acc then acc else acc ++ [y]) [x] := by
    simp [uniqueKeys]
  rw [this]
  exact uniqueKeys_foldl_ne_nil xs [x] (by simp)

/-- When the run has no enriched rows, the private aggregation of
generate_report.ts is empty. -/
lemma topicCounts_empty_of_no_run (db : DB) (runId : String)
    (h : db.enriched.filter (fun e => e.run_id == runId) = []) :
    getTopicCountsWithRepresentativePapers db runId = [] := by
  simp [getTopicCountsWithRepresentativePapers, h, uniqueKeys]

/-- When the run has an enriched row, the private aggregation of
generate_report.ts is non-empty. -/
lemma topicCounts_ne_empty_of_run (db : DB) (runId : String)
    (h : db.enriched.filter (fun e => e.run_id == runId) ≠ []) :
    getTopicCountsWithRepresentativePapers db runId ≠ [] := by
  simp only [getTopicCountsWithRepresentativePapers]
  intro hc
  rcases he : db.enriched.filter (fun e => e.run_id == runId) with _ | ⟨e, es⟩
  · exact h he
  · rw [he] at hc
    have hkeys := uniqueKeys_ne_nil e.primary_category (es.map (·.primary_category))
    have hmapnil := List.map_eq_nil_iff.mp hc
    have hperm := List.perm_insertionSort
      (fun a b : String × Nat => b.2 ≤ a.2)
      ((uniqueKeys ((e :: es).map (·.primary_category))).map
        (fun c => (c, ((e :: es).filter (fun x => x.primary_category == c)).length)))
    rw [hmapnil] at hperm
    have := hperm.symm.length_eq
    simp at this
    exact hkeys this

/-- Claim C5: requesting a report for a run with zero persisted
classifications returns the no-data error naming the run identifier
and leaves the whole database — in particular the weekly_reports
table — unchanged. -/
theorem generateReport_no_data (currentDate : String) (now : Int)
    (input : ReportGenerationInput) (db : DB)
    (h : db.enriched.filter (fun e => e.run_id == input.run_id) = []) :
    (generateReport currentDate now input db).1 =
      Except.error ("No enriched articles found for run_id: " ++ input.run_id) ∧
    (generateReport currentDate now input db).2.1 = db := by
  have h0 := topicCounts_empty_of_no_run db input.run_id h
  simp [generateReport, h0]

/-- Witness for claim C5: the empty database has no classifications
for the requested run, and the call returns the error naming it. -/
theorem generateReport_no_data_witness :
    ((DB.mk [] [] []).enriched.filter (fun e => e.run_id == "run-1") = []) ∧
    (generateReport "January 1, 2026" 0 ⟨"run-1", false⟩ (DB.mk [] [] [])).1 =
      Except.error ("No enriched articles found for run_id: " ++ "run-1") :=
  ⟨rfl,
   (generateReport_no_data "January 1, 2026" 0 ⟨"run-1", false⟩ (DB.mk [] [] []) rfl).1⟩

/-- Claim C7 (amended): generateReport performs no delivery on any
path (its delivery trace is empty — the source never invokes
sendEmail); for a run with data it persists exactly one new report row
whose emailed flag, like the returned one, equals the negation of
preview_only; and in preview mode the returned emailed flag is
false. -/
theorem generateReport_email_flag (currentDate : String) (now : Int)
    (input : ReportGenerationInput) (db : DB) :
    ((generateReport currentDate now input db).2.2 = []) ∧
    (db.enriched.filter (fun e => e.run_id == input.run_id) ≠ [] →
      ((generateReport currentDate now input db).1.toOption.map (·.emailed) =
         some (!input.preview_only) ∧
       ∃ row, (generateReport currentDate now input db).2.1.reports = db.reports ++ [row] ∧
         row.emailed = !input.preview_only ∧ row.run_id = input.run_id)) ∧
    (∀ res, input.preview_only = true →
      (generateReport currentDate now input db).1 = Except.ok res → res.emailed = false) := by
  refine ⟨?_, ?_, ?_⟩
  · simp only [generateReport]
    split <;> rfl
  · intro h
    have hne := topicCounts_ne_empty_of_run db input.run_id h
    have hfalse : (getTopicCountsWithRepresentativePapers db input.run_id).isEmpty = false := by
      rcases hx : getTopicCountsWithRepresentativePapers db input.run_id with _ | _
      · exact absurd hx hne
      · rfl
    refine ⟨?_, ?_⟩
    · simp [generateReport, hfalse]
      exact ⟨_, rfl, rfl⟩
    · simp only [generateReport, hfalse, Bool.false_eq_true, if_false]
      exact ⟨_, rfl, rfl, rfl⟩
  · intro res hprev hok
    cases hfl : (getTopicCountsWithRepresentativePapers db input.run_id).isEmpty
    · simp only [generateReport, hfl, Bool.false_eq_true, if_false] at hok
      cases hok
      simp [hprev]
    · simp only [generateReport, hfl, if_true] at hok
      cases hok

/-- The raw row of the single-paper database used by the C7
counterexample and witness. -/
def rawRowA : RawRow :=
  { arxiv_id := "p1", title := "T", summary := "S", authors := ["A"],
    published := 1, categories := [], run_id := "a", created_at := 0 }

/-- The enriched row of the single-paper database used by the C7
counterexample and witness. -/
def enrRowA : EnrichedRow :=
  { id := 0, arxiv_id := "p1", run_id := "a", primary_category := "Other",
    secondary_categories := [], potential_impact := 2, created_at := 0 }

/-- A database holding one classified paper of run a. -/
def dbC7 : DB := ⟨[rawRowA], [enrRowA], []⟩

/-- Counterexample for claim C7 as stated: with preview_only false,
generateReport returns and persists emailed = true although its
delivery trace is empty — no email delivery was attempted at all, so
the emailed flag does not mean that delivery was attempted. -/
theorem generateReport_emailed_without_delivery :
    ((generateReport "d" 0 ⟨"a", false⟩ dbC7).1.toOption.map (·.emailed) = some true) ∧
    ((generateReport "d" 0 ⟨"a", false⟩ dbC7).2.1.reports.map (·.emailed) = [true]) ∧
    ((generateReport "d" 0 ⟨"a", false⟩ dbC7).2.2 = []) :=
  ⟨rfl, rfl, rfl⟩

/-- Witness for the amended claim C7: on the one-paper database, in
preview mode, the run filter is non-empty and the returned emailed
flag is false. -/
theorem generateReport_email_flag_witness :
    (dbC7.enriched.filter (fun e => e.run_id == "a") ≠ []) ∧
    ((generateReport "d" 0 ⟨"a", true⟩ dbC7).1.toOption.map (·.emailed) = some false) := by
  have hmain := (generateReport_email_flag "d" 0 ⟨"a", true⟩ dbC7).2.1
  exact ⟨by decide, (hmain (by decide)).1⟩

/-- The invariant of the fetch dedup loop: no output identifier is in
the seen set, the output identifiers are pairwise distinct, and every
output record is the normalized form of the first entry of the feed
whose canonical identifier it carries. -/
lemma fetchLoop_spec (parseDate : String → Int) (runId : String) :
    ∀ (entries : List FeedEntry) (seen : List String),
      (∀ p ∈ fetchLoop parseDate runId entries seen, p.arxiv_id ∉ seen) ∧
      ((fetchLoop parseDate runId entries seen).map (·.arxiv_id)).Nodup ∧
      (∀ p ∈ fetchLoop parseDate runId entries seen,
        ∃ e, entries.find? (fun e' => decide (canonicalIdOf e' = some p.arxiv_id)) = some e ∧
          p = mkPaper parseDate runId p.arxiv_id e) := by
  intro entries
  induction entries with
  | nil => intro seen; simp [fetchLoop]
  | cons e rest ih =>
    intro seen
    cases hc : canonicalIdOf e with
    | none =>
      have hloop : fetchLoop parseDate runId (e :: rest) seen =
          fetchLoop parseDate runId rest seen := by
        simp [fetchLoop, hc]
      rw [hloop]
      obtain ⟨h1, h2, h3⟩ := ih seen
      refine ⟨h1, h2, ?_⟩
      intro p hp
      obtain ⟨e', hfind, hpe⟩ := h3 p hp
      refine ⟨e', ?_, hpe⟩
      rw [List.find?_cons_of_neg]
      · exact hfind
      · simp [hc]
    | some cid =>
      by_cases hseen : cid ∈ seen
      · have hloop : fetchLoop parseDate runId (e :: rest) seen =
            fetchLoop parseDate runId rest seen := by
          simp [fetchLoop, hc, hseen]
        rw [hloop]
        obtain ⟨h1, h2, h3⟩ := ih seen
        refine ⟨h1, h2, ?_⟩
        intro p hp
        obtain ⟨e', hfind, hpe⟩ := h3 p hp
        have hne : p.arxiv_id ≠ cid := fun hEq => (h1 p hp) (hEq ▸ hseen)
        refine ⟨e', ?_, hpe⟩
        rw [List.find?_cons_of_neg]
        · exact hfind
        · simp [hc]
          exact fun hEq => hne hEq.symm
      · have hloop : fetchLoop parseDate runId (e :: rest) seen =
            mkPaper parseDate runId cid e :: fetchLoop parseDate runId rest (cid :: seen) := by
          simp [fetchLoop, hc, hseen]
        rw [hloop]
        obtain ⟨h1, h2, h3⟩ := ih (cid :: seen)
        have hid : (mkPaper parseDate runId cid e).arxiv_id = cid := rfl
        refine ⟨?_, ?_, ?_⟩
        · intro p hp
          rcases List.mem_cons.mp hp with rfl | hp'
          · rw [hid]; exact hseen
          · exact fun hmem => (h1 p hp') (List.mem_cons_of_mem _ hmem)
        · rw [List.map_cons, List.nodup_cons]
          constructor
          · intro hmem
            obtain ⟨p, hp, hpid⟩ := List.mem_map.mp hmem
            have := h1 p hp
            rw [hid] at hpid
            exact this (hpid ▸ List.mem_cons_self _ _)
          · exact h2
        · intro p hp
          rcases List.mem_cons.mp hp with rfl | hp'
          · refine ⟨e, ?_, rfl⟩
            rw [List.find?_cons_of_pos]
            simp [hc, hid]
          · obtain ⟨e', hfind, hpe⟩ := h3 p hp'
            have hne : p.arxiv_id ≠ cid :=
              fun hEq => (h1 p hp') (hEq ▸ List.mem_cons_self _ _)
            refine ⟨e', ?_, hpe⟩
            rw [List.find?_cons_of_neg]
            · exact hfind
            · simp [hc]
              exact fun hEq => hne hEq.symm

/-- Claim C6: the output of the fetcher contains no two records with
the same canonical identifier, and every output record is the
normalized form of the first feed entry carrying its canonical
identifier — later revisions of the same paper are dropped.  The
canonical identifier of a record is the version-stripped identifier
canonicalIdOf computes, which is exactly what the record stores in
arxiv_id. -/
theorem fetchArxivPapers_dedup (parseDate : String → Int) (runId : String)
    (entries : List FeedEntry) :
    ((fetchArxivPapers parseDate runId entries).map (·.arxiv_id)).Nodup ∧
    ∀ p ∈ fetchArxivPapers parseDate runId entries,
      ∃ e, entries.find? (fun e' => decide (canonicalIdOf e' = some p.arxiv_id)) = some e ∧
        p = mkPaper parseDate runId p.arxiv_id e := by
  obtain ⟨_, h2, h3⟩ := fetchLoop_spec parseDate runId entries []
  exact ⟨h2, h3⟩

/-- The first-revision feed entry of the C6 witness. -/
def entryV1 : FeedEntry :=
  { id := ["http://arxiv.org/abs/2401.0001v1"], title := ["First title"],
    summary := ["First summary"], author := [["A"]], published := ["2024-01-01"],
    category := ["cs.LG"] }

/-- The second-revision feed entry of the C6 witness: the same paper,
version 2, with different fields. -/
def entryV2 : FeedEntry :=
  { id := ["http://arxiv.org/abs/2401.0001v2"], title := ["Second title"],
    summary := ["Second summary"], author := [["B"]], published := ["2024-01-02"],
    category := ["cs.LG"] }

/-- Witness for claim C6: two entries differing only in the version
suffix collapse to one record carrying the fields of the first entry,
and the output identifiers are duplicate-free. -/
theorem fetchArxivPapers_dedup_witness :
    ((fetchArxivPapers (fun _ => 0) "r" [entryV1, entryV2]).map (·.arxiv_id) = ["2401.0001"]) ∧
    ((fetchArxivPapers (fun _ => 0) "r" [entryV1, entryV2]).map (·.title) = ["First title"]) ∧
    ((fetchArxivPapers (fun _ => 0) "r" [entryV1, entryV2]).map (·.arxiv_id)).Nodup :=
  ⟨by decide, by decide, (fetchArxivPapers_dedup (fun _ => 0) "r" [entryV1, entryV2]).1⟩

/-- The raw table grows by exactly the rows of the processed papers,
in order. -/
lemma ingest_fold_raw (runId : String) (now : Int) :
    ∀ (ps : List IngestEntry) (db : DB) (t : Nat) (c : List (String × Nat)),
      ((ps.foldl (ingestStep runId now) (db, t, c)).1).raw =
        db.raw ++ ps.map (rawRowOfEntry runId now) := by
  intro ps
  induction ps with
  | nil => intro db t c; simp
  | cons p rest ih =>
    intro db t c
    simp only [List.foldl_cons, List.map_cons]
    rw [ih]
    simp [ingestStep]

/-- The enriched table grows by one row per processed paper. -/
lemma ingest_fold_enr_len (runId : String) (now : Int) :
    ∀ (ps : List IngestEntry) (db : DB) (t : Nat) (c : List (String × Nat)),
      ((ps.foldl (ingestStep runId now) (db, t, c)).1).enriched.length =
        db.enriched.length + ps.length := by
  intro ps
  induction ps with
  | nil => intro db t c; simp
  | cons p rest ih =>
    intro db t c
    simp only [List.foldl_cons]
    rw [ih]
    simp [ingestStep]
    omega

/-- The total_new counter counts exactly the processed papers. -/
lemma ingest_fold_total (runId : String) (now : Int) :
    ∀ (ps : List IngestEntry) (db : DB) (t : Nat) (c : List (String × Nat)),
      ((ps.foldl (ingestStep runId now) (db, t, c)).2).1 = t + ps.length := by
  intro ps
  induction ps with
  | nil => intro db t c; simp
  | cons p rest ih =>
    intro db t c
    simp only [List.foldl_cons]
    rw [ih]
    simp [ingestStep]
    omega

/-- After an ingestion run, the identifier of every upstream paper is
stored. -/
lemma ingest_ids (papers : List IngestEntry) (runId : String) (now : Int) (db : DB) :
    ∀ p ∈ papers, p.id ∈ (ingestPapers papers runId now db).1.raw.map (·.arxiv_id) := by
  intro p hp
  simp only [ingestPapers]
  rw [ingest_fold_raw]
  rw [List.map_append, List.map_map]
  by_cases hex : p.id ∈ db.raw.map (·.arxiv_id)
  · exact List.mem_append_left _ hex
  · apply List.mem_append_right
    apply List.mem_map.mpr
    refine ⟨p, ?_, rfl⟩
    apply List.mem_filter.mpr
    exact ⟨hp, by simpa using hex⟩

/-- Claim C8: running ingestPapers a second time with the same
upstream papers yields total_new 0, an empty topic_counts record and
an unchanged database; and starting from empty tables, the number of
stored raw rows and of stored enriched rows after the second run
equals the total_new of the first run. -/
theorem ingestPapers_idempotent (papers : List IngestEntry) (runA runB : String)
    (nowA nowB : Int) (db0 : DB) :
    ((ingestPapers papers runB nowB (ingestPapers papers runA nowA db0).1).2.total_new = 0) ∧
    ((ingestPapers papers runB nowB (ingestPapers papers runA nowA db0).1).2.topic_counts = []) ∧
    ((ingestPapers papers runB nowB (ingestPapers papers runA nowA db0).1).1 =
       (ingestPapers papers runA nowA db0).1) ∧
    (db0.raw = [] → db0.enriched = [] →
      ((ingestPapers papers runB nowB (ingestPapers papers runA nowA db0).1).1.raw.length =
         (ingestPapers papers runA nowA db0).2.total_new ∧
       (ingestPapers papers runB nowB (ingestPapers papers runA nowA db0).1).1.enriched.length =
         (ingestPapers papers runA nowA db0).2.total_new)) := by
  have hnil : papers.filter
      (fun p => decide (p.id ∉ (ingestPapers papers runA nowA db0).1.raw.map (·.arxiv_id))) = [] := by
    apply List.filter_eq_nil_iff.mpr
    intro p hp
    simp only [decide_eq_true_eq, not_not]
    exact ingest_ids papers runA nowA db0 p hp
  have hsecond : ingestPapers papers runB nowB (ingestPapers papers runA nowA db0).1 =
      ((ingestPapers papers runA nowA db0).1,
       { run_id := runB, total_new := 0, topic_counts := [] }) := by
    conv_lhs => rw [ingestPapers]
    rw [hnil]
    rfl
  refine ⟨by rw [hsecond], by rw [hsecond], by rw [hsecond], ?_⟩
  intro hraw henr
  have hall : papers.filter (fun p => decide (p.id ∉ db0.raw.map (·.arxiv_id))) = papers := by
    apply List.filter_eq_self.mpr
    intro p hp
    simp [hraw]
  constructor
  · rw [hsecond]
    simp only [ingestPapers]
    rw [hall, ingest_fold_raw, ingest_fold_total, hraw]
    simp
  · rw [hsecond]
    simp only [ingestPapers]
    rw [hall, ingest_fold_enr_len, ingest_fold_total, henr]
    simp

/-- The mock upstream papers of ingest_papers.ts. -/
def mockPapers : List IngestEntry :=
  [{ id := "2024.01001",
     title := "Efficient Fine-tuning of Large Language Models with LoRA",
     summary := "This paper presents a novel approach to parameter-efficient fine-tuning using Low-Rank Adaptation (LoRA) techniques.",
     authors := ["John Smith", "Jane Doe"],
     published := 1705312800, categories := ["cs.LG", "cs.AI"] },
   { id := "2024.01002",
     title := "Advances in Retrieval-Augmented Generation for Question Answering",
     summary := "We explore new methods for improving RAG systems through better retrieval mechanisms and context integration.",
     authors := ["Alice Johnson", "Bob Wilson"],
     published := 1705415400, categories := ["cs.CL", "cs.IR"] },
   { id := "2024.01003",
     title := "Multimodal Foundation Models: Vision and Language Integration",
     summary := "This work investigates the integration of visual and textual modalities in foundation models.",
     authors := ["Carol Brown"],
     published := 1705482900, categories := ["cs.CV", "cs.LG"] }]

/-- Witness for claim C8: two successive runs over the mock upstream
papers starting from the empty database. -/
theorem ingestPapers_idempotent_witness :
    ((ingestPapers mockPapers "b" 1 (ingestPapers mockPapers "a" 0 (DB.mk [] [] [])).1).2.total_new = 0) ∧
    ((ingestPapers mockPapers "b" 1 (ingestPapers mockPapers "a" 0 (DB.mk [] [] [])).1).1.raw.length =
       (ingestPapers mockPapers "a" 0 (DB.mk [] [] [])).2.total_new) :=
  ⟨(ingestPapers_idempotent mockPapers "a" "b" 0 1 (DB.mk [] [] [])).1,
   ((ingestPapers_idempotent mockPapers "a" "b" 0 1 (DB.mk [] [] [])).2.2.2 rfl rfl).1⟩

/-- Raw row of run a for the C4 counterexample. -/
def rawP1 : RawRow :=
  { arxiv_id := "p1", title := "t1", summary := "s1", authors := ["A"],
    published := 10, categories := [], run_id := "a", created_at := 0 }

/-- Raw row of run b for the C4 counterexample. -/
def rawP2 : RawRow :=
  { arxiv_id := "p2", title := "t2", summary := "s2", authors := ["B"],
    published := 20, categories := [], run_id := "b", created_at := 0 }

/-- Classification of run a for the C4 counterexample. -/
def enrP1 : EnrichedRow :=
  { id := 0, arxiv_id := "p1", run_id := "a", primary_category := "Foundation Models",
    secondary_categories := [], potential_impact := 3, created_at := 0 }

/-- Classification of run b, same category, higher impact, for the C4
counterexample. -/
def enrP2 : EnrichedRow :=
  { id := 1, arxiv_id := "p2", run_id := "b", primary_category := "Foundation Models",
    secondary_categories := [], potential_impact := 5, created_at := 0 }

/-- A database with one classified paper in each of two runs, sharing
a primary category. -/
def dbC4 : DB := ⟨[rawP1, rawP2], [enrP1, enrP2], []⟩

/-- Counterexample for claim C4 as stated: the aggregation used by
report generation, asked for run a, returns the run-b paper p2 as a
representative (even ahead of the run-a paper, because only impact is
ordered), although no classification of run a carries p2 — its
representative query has no run_id condition. -/
theorem reportAggregation_uses_other_runs :
    ((getTopicCountsWithRepresentativePapers dbC4 "a").map
       (fun tc => (tc.count, tc.representative_papers.map (·.arxiv_id))) =
      [(1, ["p2", "p1"])]) ∧
    ∃ tc ∈ getTopicCountsWithRepresentativePapers dbC4 "a",
      ∃ p ∈ tc.representative_papers,
        ∀ e ∈ dbC4.enriched, e.run_id = "a" → e.arxiv_id ≠ p.arxiv_id := by
  exact ⟨by decide, by decide⟩

/-- Claim C4 (amended, proved of getTopicAggregations): every topic
entry of the aggregation carries at most 3 representative papers, each
the join of a classification of the requested run with its raw paper,
and the representatives are ordered by impact score descending with
ties broken by publication date descending. -/
theorem getTopicAggregations_run_scoped (db : DB) (runId : String) (tc : TopicCount)
    (htc : tc ∈ getTopicAggregations db runId) :
    tc.representative_papers.length ≤ 3 ∧
    (∀ p ∈ tc.representative_papers,
      ∃ e r, e ∈ db.enriched ∧ e.run_id = runId ∧ r ∈ db.raw ∧ r.arxiv_id = e.arxiv_id ∧
        p = mkRep (e, r)) ∧
    List.Sorted repRel tc.representative_papers := by
  simp only [getTopicAggregations] at htc
  rw [List.mem_insertionSort] at htc
  obtain ⟨g, hg, rfl⟩ := List.mem_map.mp htc
  obtain ⟨c, hcmem, rfl⟩ := List.mem_map.mp hg
  have hsorted : List.Sorted aggRel (List.insertionSort aggRel (joinRun db runId)) :=
    List.sorted_insertionSort aggRel _
  have hsub :
      (((List.insertionSort aggRel (joinRun db runId)).filter
        (fun x => x.1.primary_category == c)).take 3).Sublist
      (List.insertionSort aggRel (joinRun db runId)) :=
    (List.take_sublist _ _).trans (List.filter_sublist _)
  refine ⟨?_, ?_, ?_⟩
  · simp only [List.length_map, List.length_take]
    exact inf_le_left
  · intro p hp
    obtain ⟨x, hx, rfl⟩ := List.mem_map.mp hp
    have hxs : x ∈ List.insertionSort aggRel (joinRun db runId) := hsub.subset hx
    have hxj : x ∈ joinRun db runId := (List.mem_insertionSort aggRel).mp hxs
    simp only [joinRun] at hxj
    obtain ⟨e, he, heq⟩ := List.mem_filterMap.mp hxj
    obtain ⟨r, hr, hxer⟩ := Option.map_eq_some'.mp heq
    obtain ⟨hemem, hebeq⟩ := List.mem_filter.mp he
    have hrpred := List.find?_some hr
    refine ⟨e, r, hemem, eq_of_beq hebeq, List.mem_of_find?_eq_some hr, ?_, ?_⟩
    · exact eq_of_beq hrpred
    · rw [← hxer]
  · rw [List.Sorted, List.pairwise_map]
    have hpw : List.Pairwise aggRel
        (((List.insertionSort aggRel (joinRun db runId)).filter
          (fun x => x.1.primary_category == c)).take 3) :=
      List.Pairwise.sublist hsub hsorted
    exact hpw.imp (fun hab => hab)

/-- The topic entry of the C4 witness. -/
def tcW : TopicCount :=
  { primary_category := "Other", count := 1,
    representative_papers :=
      [{ arxiv_id := "p1", title := "T", summary := "S", authors := ["A"],
         published := 1, potential_impact := 2 }] }

/-- Witness for the amended claim C4: on the one-paper database, the
aggregation of run a is exactly the topic entry above, and the theorem
yields its representative bound. -/
theorem getTopicAggregations_run_scoped_witness :
    (tcW ∈ getTopicAggregations dbC7 "a") ∧ tcW.representative_papers.length ≤ 3 :=
  ⟨by decide, (getTopicAggregations_run_scoped dbC7 "a" tcW (by decide)).1⟩

end ArxivSpec
